import Mathlib

/-!
Verification development for the voice-shopping tool-routing orchestrator.

Shallow embedding of the orchestrator core:
  * `SessionState` and its operations (src/mcp_host/core/state_manager.py),
  * the tool registry and dispatcher (`connect_to_server` registration loop and
    `call_tool` in src/mcp_host/core/host.py),
  * the tool-use conversation loop (`chat` in src/mcp_host/core/host.py).

Modelling conventions:
  * Python numbers (prices, discount amounts) are modelled exactly as rationals;
    the properties proved here (clamping, field equalities) do not depend on
    floating-point rounding.
  * Python dicts used as registries are modelled as association lists with
    Python assignment semantics (overwrite in place, else append).
  * The language-model API is an oracle parameter; exceptions raised by it are
    modelled as `Except.error`.  Host-side Python exceptions that escape
    `call_tool` (IndexError from `split`, KeyError from `self.sessions[...]`)
    are modelled by `PyErr`.
  * The conversation loop is given explicit fuel; running out of fuel models
    non-termination of the unbounded `while` loop and is distinct from any
    exception.
  * The engine additionally records an instrumentation trace (one entry per
    model invocation, one entry per tool dispatch); the trace is write-only and
    does not influence control flow.
-/

namespace VoiceShop

/-- JSON values, used for tool input schemas and tool-call arguments.  The host
never inspects these; they are carried through opaquely. -/
inductive Json where
  | null
  | bool (b : Bool)
  | num (n : Rat)
  | str (s : String)
  | arr (elems : List Json)
  | obj (fields : List (String × Json))

/-- Python dict lookup `d.get(key)` on an association list. -/
def dget {α : Type} : List (String × α) → String → Option α
  | [], _ => none
  | (k, v) :: rest, key => if k = key then some v else dget rest key

/-- Python dict assignment `d[key] = v`: overwrite the existing binding in
place, else append. -/
def dset {α : Type} : List (String × α) → String → α → List (String × α)
  | [], key, v => [(key, v)]
  | (k, w) :: rest, key, v =>
    if k = key then (k, v) :: rest else (k, w) :: dset rest key v

/-! ## Session state (src/mcp_host/core/state_manager.py) -/

/-- `BasketItem` dataclass: an item in the shopping basket. -/
structure BasketItem where
  product_id : String
  name : String
  price : Rat
  quantity : Int
deriving Repr, DecidableEq

/-- `BasketItem.subtotal`: `price * quantity`. -/
def BasketItem.subtotal (i : BasketItem) : Rat := i.price * (i.quantity : Rat)

/-- A tool result dict appended by the chat loop:
`\x7b"type": "tool_result", "tool_use_id": ..., "content": ...\x7d`. -/
structure ToolResult where
  tool_use_id : String
  content : String

/-- A content block of a model response: a text block (has a `.text`
attribute) or a tool-use request block (has `.id`, `.name`, `.input`). -/
inductive ContentBlock where
  | text (t : String)
  | toolUse (id : String) (name : String) (input : Json)

/-- The content of a history message: plain text, a list of response blocks,
or a list of tool results. -/
inductive MessageContent where
  | ofText (t : String)
  | blocks (bs : List ContentBlock)
  | results (rs : List ToolResult)

/-- One entry of `conversation_history`: a dict `\x7b"role": ..., "content": ...\x7d`. -/
structure Message where
  role : String
  content : MessageContent

/-- `SessionState` dataclass.  `session_start` (a `datetime.now()` timestamp)
is modelled as an abstract integer; it is never read or reset. -/
structure SessionState where
  basket : List BasketItem
  discount_code : Option String
  discount_amount : Rat
  conversation_history : List Message
  user_location : Option String
  user_preferences : List (String × Json)
  current_order_id : Option String
  session_start : Int

/-- `SessionState.basket_total`: sum of item subtotals (before discount). -/
def SessionState.basket_total (s : SessionState) : Rat :=
  (s.basket.map BasketItem.subtotal).sum

/-- `SessionState.basket_total_with_discount`: `max(0, basket_total - discount_amount)`. -/
def SessionState.basket_total_with_discount (s : SessionState) : Rat :=
  max 0 (s.basket_total - s.discount_amount)

/-- `SessionState.basket_item_count`: sum of item quantities. -/
def SessionState.basket_item_count (s : SessionState) : Int :=
  (s.basket.map BasketItem.quantity).sum

/-- The scan of `add_to_basket`: walk the basket; on the first item whose
`product_id` matches, increment its quantity in place and return it; if no
item matches, append a fresh item and return that. -/
def addToBasketList (product_id nm : String) (price : Rat) (quantity : Int) :
    List BasketItem → List BasketItem × BasketItem
  | [] =>
    let new_item : BasketItem :=
      { product_id := product_id, name := nm, price := price, quantity := quantity }
    ([new_item], new_item)
  | item :: rest =>
    if item.product_id = product_id then
      let upd := { item with quantity := item.quantity + quantity }
      (upd :: rest, upd)
    else
      let r := addToBasketList product_id nm price quantity rest
      (item :: r.1, r.2)

/-- `SessionState.add_to_basket`: add an item or update the quantity of the
existing entry; returns the new state and the returned `BasketItem`. -/
def SessionState.add_to_basket (s : SessionState) (product_id nm : String)
    (price : Rat) (quantity : Int) : SessionState × BasketItem :=
  let r := addToBasketList product_id nm price quantity s.basket
  ({ s with basket := r.1 }, r.2)

/-- The scan of `remove_from_basket`: pop the first item whose `product_id`
matches; report whether one was found. -/
def removeFromBasketList (product_id : String) :
    List BasketItem → List BasketItem × Bool
  | [] => ([], false)
  | item :: rest =>
    if item.product_id = product_id then (rest, true)
    else
      let r := removeFromBasketList product_id rest
      (item :: r.1, r.2)

/-- `SessionState.remove_from_basket`. -/
def SessionState.remove_from_basket (s : SessionState) (product_id : String) :
    SessionState × Bool :=
  let r := removeFromBasketList product_id s.basket
  ({ s with basket := r.1 }, r.2)

/-- `SessionState.clear_basket`: empty the basket and drop the discount. -/
def SessionState.clear_basket (s : SessionState) : SessionState :=
  { s with basket := [], discount_code := none, discount_amount := 0 }

/-- `SessionState.apply_discount`: set both discount fields unconditionally
(no validation of the amount). -/
def SessionState.apply_discount (s : SessionState) (code : String) (amount : Rat) :
    SessionState :=
  { s with discount_code := some code, discount_amount := amount }

/-- One item of the dict returned by `get_basket_summary`. -/
structure BasketSummaryItem where
  product_id : String
  name : String
  price : Rat
  quantity : Int
  subtotal : Rat

/-- The dict returned by `get_basket_summary`. -/
structure BasketSummary where
  items : List BasketSummaryItem
  item_count : Int
  subtotal : Rat
  discount_code : Option String
  discount_amount : Rat
  total : Rat
  currency : String

/-- `SessionState.get_basket_summary`. -/
def SessionState.get_basket_summary (s : SessionState) : BasketSummary :=
  { items := s.basket.map (fun item =>
      { product_id := item.product_id, name := item.name, price := item.price,
        quantity := item.quantity, subtotal := item.subtotal })
    item_count := s.basket_item_count
    subtotal := s.basket_total
    discount_code := s.discount_code
    discount_amount := s.discount_amount
    total := s.basket_total_with_discount
    currency := "GBP" }

/-- `SessionState.reset`: reassign every field except `session_start`. -/
def SessionState.reset (s : SessionState) : SessionState :=
  { s with
    basket := []
    discount_code := none
    discount_amount := 0
    conversation_history := []
    user_location := none
    user_preferences := []
    current_order_id := none }

/-! ## Basket observations used by the statements -/

/-- The product ids of the basket entries, in order. -/
def basketIds (b : List BasketItem) : List String := b.map BasketItem.product_id

/-- Well-formedness: at most one basket entry per `product_id`. -/
def BasketWF (b : List BasketItem) : Prop := (basketIds b).Nodup

/-- The first basket entry with the given `product_id`, if any. -/
def findEntry (product_id : String) : List BasketItem → Option BasketItem
  | [] => none
  | item :: rest =>
    if item.product_id = product_id then some item else findEntry product_id rest

lemma addToBasketList_present (pid nm : String) (pr : Rat) (q : Int) :
    ∀ b : List BasketItem, pid ∈ basketIds b →
      basketIds (addToBasketList pid nm pr q b).1 = basketIds b
      ∧ (addToBasketList pid nm pr q b).1.length = b.length
      ∧ ∀ old, findEntry pid b = some old →
          (addToBasketList pid nm pr q b).2 = { old with quantity := old.quantity + q }
          ∧ findEntry pid (addToBasketList pid nm pr q b).1
              = some (addToBasketList pid nm pr q b).2
  | [], hmem => absurd hmem (by simp [basketIds])
  | item :: rest, hmem => by
    by_cases h : item.product_id = pid
    · refine ⟨?_, ?_, ?_⟩ <;>
        simp [addToBasketList, findEntry, basketIds, h]
    · have hmem' : pid ∈ basketIds rest := by
        simpa [basketIds, h, Ne.symm h] using hmem
      obtain ⟨h1, h2, h3⟩ := addToBasketList_present pid nm pr q rest hmem'
      refine ⟨?_, ?_, ?_⟩
      · simp [addToBasketList, basketIds, h] at h1 ⊢
        exact h1
      · simpa [addToBasketList, h] using h2
      · intro old hold
        have hold' : findEntry pid rest = some old := by
          simpa [findEntry, h] using hold
        obtain ⟨h4, h5⟩ := h3 old hold'
        constructor
        · simpa [addToBasketList, h] using h4
        · simpa [addToBasketList, findEntry, h] using h5

lemma addToBasketList_absent (pid nm : String) (pr : Rat) (q : Int) :
    ∀ b : List BasketItem, pid ∉ basketIds b →
      (addToBasketList pid nm pr q b).1
        = b ++ [{ product_id := pid, name := nm, price := pr, quantity := q }]
  | [], _ => by simp [addToBasketList]
  | item :: rest, hmem => by
    have h : ¬ item.product_id = pid := by
      intro h; exact hmem (by simp [basketIds, h])
    have hmem' : pid ∉ basketIds rest := fun hr => hmem (by simp [basketIds]; right; exact (by simpa [basketIds] using hr))
    simp [addToBasketList, h, addToBasketList_absent pid nm pr q rest hmem']

lemma removeFromBasketList_sublist (pid : String) :
    ∀ b : List BasketItem, (removeFromBasketList pid b).1.Sublist b
  | [] => by simp [removeFromBasketList]
  | item :: rest => by
    by_cases h : item.product_id = pid
    · simp [removeFromBasketList, h]
    · simpa [removeFromBasketList, h] using
        (removeFromBasketList_sublist pid rest).cons₂ item

lemma basketWF_add (pid nm : String) (pr : Rat) (q : Int) (b : List BasketItem)
    (hwf : BasketWF b) : BasketWF (addToBasketList pid nm pr q b).1 := by
  by_cases hmem : pid ∈ basketIds b
  · have h1 := (addToBasketList_present pid nm pr q b hmem).1
    unfold BasketWF at hwf ⊢
    rw [h1]; exact hwf
  · unfold BasketWF at hwf ⊢
    rw [addToBasketList_absent pid nm pr q b hmem]
    have hids : basketIds
        (b ++ [{ product_id := pid, name := nm, price := pr, quantity := q }])
        = basketIds b ++ [pid] := by simp [basketIds]
    rw [hids, List.nodup_append]
    refine ⟨hwf, List.nodup_singleton pid, ?_⟩
    intro x hx hx'
    have : x = pid := by simpa using hx'
    subst this
    exact hmem hx

/-- An example session state used by concrete witnesses: one basket entry. -/
def stEx9 : SessionState :=
  { basket := [{ product_id := "p1", name := "Tent", price := 5, quantity := 1 }]
    discount_code := none
    discount_amount := 0
    conversation_history := []
    user_location := none
    user_preferences := []
    current_order_id := none
    session_start := 0 }

/-- An example session state whose applied discount exceeds the basket total. -/
def stEx10 : SessionState :=
  { basket := [{ product_id := "p1", name := "Tent", price := 5, quantity := 1 }]
    discount_code := some "BIG"
    discount_amount := 100
    conversation_history := []
    user_location := none
    user_preferences := []
    current_order_id := none
    session_start := 0 }

/-- C7: `reset()` clears the history and every contextual field to its
default value (empty basket, no discount code, zero discount amount, empty
history, no user location, empty preferences, no current order), for every
prior state; in this functional embedding the update is a single atomic
state replacement, so no partially-reset state is observable. -/
theorem C7_reset_clears_everything (s : SessionState) :
    (s.reset).conversation_history = []
    ∧ (s.reset).basket = []
    ∧ (s.reset).discount_code = none
    ∧ (s.reset).discount_amount = 0
    ∧ (s.reset).user_location = none
    ∧ (s.reset).user_preferences = []
    ∧ (s.reset).current_order_id = none := by
  refine ⟨rfl, rfl, rfl, rfl, rfl, rfl, rfl⟩

/-- C9: the basket holds at most one entry per `product_id`.  The empty
basket is well-formed; under well-formedness, `add_to_basket` of a
`product_id` already present keeps the id sequence and length unchanged and
returns the existing entry with its quantity incremented by the given
amount; and well-formedness is preserved by `add_to_basket`,
`remove_from_basket`, `clear_basket` and `reset`. -/
theorem C9_at_most_one_entry_per_product :
    BasketWF ([] : List BasketItem)
    ∧ (∀ (s : SessionState) (pid nm : String) (pr : Rat) (q : Int),
        BasketWF s.basket → pid ∈ basketIds s.basket →
        basketIds (s.add_to_basket pid nm pr q).1.basket = basketIds s.basket
        ∧ (s.add_to_basket pid nm pr q).1.basket.length = s.basket.length
        ∧ ∀ old, findEntry pid s.basket = some old →
            (s.add_to_basket pid nm pr q).2 = { old with quantity := old.quantity + q }
            ∧ findEntry pid (s.add_to_basket pid nm pr q).1.basket
                = some (s.add_to_basket pid nm pr q).2)
    ∧ (∀ (s : SessionState) (pid nm : String) (pr : Rat) (q : Int),
        BasketWF s.basket → BasketWF (s.add_to_basket pid nm pr q).1.basket)
    ∧ (∀ (s : SessionState) (pid : String),
        BasketWF s.basket → BasketWF (s.remove_from_basket pid).1.basket)
    ∧ (∀ s : SessionState, BasketWF s.clear_basket.basket ∧ BasketWF s.reset.basket) := by
  refine ⟨by simp [BasketWF, basketIds], ?_, ?_, ?_, ?_⟩
  · intro s pid nm pr q _ hmem
    obtain ⟨h1, h2, h3⟩ := addToBasketList_present pid nm pr q s.basket hmem
    exact ⟨h1, h2, h3⟩
  · intro s pid nm pr q hwf
    exact basketWF_add pid nm pr q s.basket hwf
  · intro s pid hwf
    exact List.Nodup.sublist
      ((removeFromBasketList_sublist pid s.basket).map BasketItem.product_id) hwf
  · intro s
    exact ⟨by simp [BasketWF, basketIds, SessionState.clear_basket],
      by simp [BasketWF, basketIds, SessionState.reset]⟩

/-- Witness for C9 at a concrete input: the basket of `stEx9` is well formed
and contains `"p1"`; adding two more units of `"p1"` keeps one entry with
quantity `3`. -/
theorem C9_at_most_one_entry_per_product_witness :
    BasketWF stEx9.basket
    ∧ "p1" ∈ basketIds stEx9.basket
    ∧ basketIds (stEx9.add_to_basket "p1" "Tent" 5 2).1.basket = basketIds stEx9.basket
    ∧ (stEx9.add_to_basket "p1" "Tent" 5 2).1.basket.length = stEx9.basket.length
    ∧ (stEx9.add_to_basket "p1" "Tent" 5 2).2
        = { product_id := "p1", name := "Tent", price := 5, quantity := 3 } := by
  have hwf : BasketWF stEx9.basket := by
    simp [BasketWF, basketIds, stEx9]
  have hmem : "p1" ∈ basketIds stEx9.basket := by
    simp [basketIds, stEx9]
  obtain ⟨h1, h2, h3⟩ :=
    (C9_at_most_one_entry_per_product.2.1) stEx9 "p1" "Tent" 5 2 hwf hmem
  have hfind : findEntry "p1" stEx9.basket
      = some { product_id := "p1", name := "Tent", price := 5, quantity := 1 } := by
    simp [findEntry, stEx9]
  obtain ⟨h4, _⟩ := h3 _ hfind
  exact ⟨hwf, hmem, h1, h2, by rw [h4]; rfl⟩

/-- C10: the discounted basket total is never negative: it is also the
`total` field of `get_basket_summary`; `apply_discount` sets the code and
amount unconditionally (no validation); and whenever the discount amount
exceeds the pre-discount total the discounted total is clamped to zero. -/
theorem C10_discounted_total_never_negative :
    (∀ s : SessionState, 0 ≤ s.basket_total_with_discount)
    ∧ (∀ s : SessionState, (s.get_basket_summary).total = s.basket_total_with_discount)
    ∧ (∀ (s : SessionState) (code : String) (amount : Rat),
        (s.apply_discount code amount).discount_code = some code
        ∧ (s.apply_discount code amount).discount_amount = amount
        ∧ (s.apply_discount code amount).basket = s.basket)
    ∧ (∀ s : SessionState,
        s.basket_total < s.discount_amount → s.basket_total_with_discount = 0) := by
  refine ⟨?_, ?_, ?_, ?_⟩
  · intro s
    exact le_max_left 0 _
  · intro s
    rfl
  · intro s code amount
    exact ⟨rfl, rfl, rfl⟩
  · intro s h
    exact max_eq_left (sub_nonpos.mpr h.le)

/-- Witness for C10 at a concrete input: in `stEx10` the discount (100)
exceeds the basket total (5), and the discounted total is exactly 0. -/
theorem C10_discounted_total_never_negative_witness :
    stEx10.basket_total < stEx10.discount_amount
    ∧ stEx10.basket_total_with_discount = 0 := by
  have hlt : stEx10.basket_total < stEx10.discount_amount := by
    norm_num [SessionState.basket_total, BasketItem.subtotal, stEx10]
  exact ⟨hlt, (C10_discounted_total_never_negative.2.2.2) stEx10 hlt⟩

/-! ## Tool registry and dispatcher (src/mcp_host/core/host.py) -/

/-- A content part of a raw MCP tool result: either it has a `.text`
attribute, or only a string representation. -/
inductive RawPart where
  | textPart (text : String)
  | otherPart (s : String)

/-- A raw MCP tool result: either it has a `.content` sequence of parts, or
only a string representation. -/
inductive RawResult where
  | withContent (parts : List RawPart)
  | plain (s : String)

/-- The per-part contribution in `call_tool`: `content.text` when the part
has a `.text` attribute, else `str(content)`. -/
def partToText : RawPart → String
  | .textPart t => t
  | .otherPart s => s

/-- The success normalization in `call_tool`: join the part contributions
with newline when the result has a `.content` sequence, else `str(result)`. -/
def normalizeResult : RawResult → String
  | .withContent parts => String.intercalate "\n" (parts.map partToText)
  | .plain s => s

/-- A tool definition dict built during registration:
`\x7b"name": ..., "description": ..., "input_schema": ...\x7d`. -/
structure ToolDef where
  name : String
  description : String
  input_schema : Json

/-- One live MCP client session, modelled by its `call_tool` behaviour: a
state-threading function from a world, a local tool name and arguments to a
new world and either a raw result or the string of a raised exception. -/
structure SessionConn (W : Type) where
  call : W → String → Json → W × Except String RawResult

/-- The host's registry and connection tables (`self.tools`,
`self.tool_to_server`, `self.sessions`). -/
structure Host (W : Type) where
  tools : List ToolDef
  tool_to_server : List (String × String)
  sessions : List (String × SessionConn W)

/-- Python `s.split("__", 1)` on character lists: split at the leftmost
occurrence of `"__"`; `none` when there is no occurrence. -/
def splitFirstDunder : List Char → Option (List Char × List Char)
  | [] => none
  | [_] => none
  | c :: c2 :: rest =>
    if c = '_' ∧ c2 = '_' then some ([], rest)
    else (splitFirstDunder (c2 :: rest)).map (fun p => (c :: p.1, p.2))

/-- `tool_name.split("__", 1)[1]`: everything after the first `"__"`;
`none` models the `IndexError` raised when `"__"` does not occur. -/
def splitDunderTail (s : String) : Option String :=
  (splitFirstDunder s.data).map (fun p => String.mk p.2)

/-- `true` when the character list has no occurrence of `"__"`. -/
def noDunder : List Char → Bool
  | [] => true
  | [_] => true
  | c :: c2 :: rest =>
    if c = '_' ∧ c2 = '_' then false else noDunder (c2 :: rest)

/-- Lowercase hexadecimal digit, as emitted by `json.dumps` escapes. -/
def hexDigitChar (n : Nat) : Char :=
  if n < 10 then Char.ofNat (48 + n) else Char.ofNat (87 + n)

/-- A `\uXXXX` escape sequence. -/
def uEscape (n : Nat) : List Char :=
  ['\\', 'u', hexDigitChar (n / 4096 % 16), hexDigitChar (n / 256 % 16),
   hexDigitChar (n / 16 % 16), hexDigitChar (n % 16)]

/-- The escaping `json.dumps` (with its default `ensure_ascii=True`) applies
to one character of a string value. -/
def jsonEscapeChar (c : Char) : List Char :=
  if c = '"' then ['\\', '"']
  else if c = '\\' then ['\\', '\\']
  else if c = '\n' then ['\\', 'n']
  else if c = '\r' then ['\\', 'r']
  else if c = '\t' then ['\\', 't']
  else if c.toNat = 8 then ['\\', 'b']
  else if c.toNat = 12 then ['\\', 'f']
  else if 32 ≤ c.toNat ∧ c.toNat ≤ 126 then [c]
  else if c.toNat < 65536 then uEscape c.toNat
  else uEscape (55296 + (c.toNat - 65536) / 1024)
    ++ uEscape (56320 + (c.toNat - 65536) % 1024)

/-- `json.dumps` escaping of a whole string value. -/
def jsonEscape (s : String) : String :=
  String.mk (s.data.map jsonEscapeChar).flatten

/-- `json.dumps(\x7b"error": msg\x7d)` with the default separators. -/
def json_dumps_error (msg : String) : String :=
  "\x7b\x22error\x22: \x22" ++ jsonEscape msg ++ "\x22\x7d"

/-- A Python exception escaping `call_tool` itself (as opposed to an
exception from the MCP session, which `call_tool` catches). -/
inductive PyErr where
  | indexError
  | keyError
deriving DecidableEq

/-- `MCPHost.call_tool`: route a qualified tool name to the owning session.
Absent from `tool_to_server`, or mapped to a falsy (empty) server name,
yields the unknown-tool error payload; otherwise the local name is the part
of the qualified name after the first `"__"` and the owning session is
invoked with it; raised session exceptions become error payloads. -/
def call_tool {W : Type} (h : Host W) (w : W) (tool_name : String)
    (arguments : Json) : W × Except PyErr String :=
  match dget h.tool_to_server tool_name with
  | none => (w, .ok (json_dumps_error ("Unknown tool: " ++ tool_name)))
  | some server_name =>
    if server_name = "" then
      (w, .ok (json_dumps_error ("Unknown tool: " ++ tool_name)))
    else
      match splitDunderTail tool_name with
      | none => (w, .error .indexError)
      | some actual_tool_name =>
        match dget h.sessions server_name with
        | none => (w, .error .keyError)
        | some session =>
          match session.call w actual_tool_name arguments with
          | (w', .ok result) => (w', .ok (normalizeResult result))
          | (w', .error e) => (w', .ok (json_dumps_error e))

/-- The qualified name built during registration: `f"\x7bname\x7d__\x7btool.name\x7d"`. -/
def qualifiedName (server_name local_name : String) : String :=
  server_name ++ "__" ++ local_name

/-- A raw tool descriptor returned by a server's `list_tools()`. -/
structure RawToolInfo where
  name : String
  description : Option String
  inputSchema : Json

/-- The Python expression `tool.description or f"Tool: \x7btool.name\x7d"`:
both `None` and the empty string are falsy, so both take the default. -/
def descriptionOrDefault (d : Option String) (dflt : String) : String :=
  match d with
  | none => dflt
  | some s => if s = "" then dflt else s

/-- One iteration of the registration loop in `connect_to_server`: append
the tool definition and record `qualifiedName -> serverName`. -/
def registerTool (server_name : String) (t : RawToolInfo)
    (tools : List ToolDef) (t2s : List (String × String)) :
    List ToolDef × List (String × String) :=
  (tools ++ [{ name := qualifiedName server_name t.name
               description := descriptionOrDefault t.description ("Tool: " ++ t.name)
               input_schema := t.inputSchema }],
   dset t2s (qualifiedName server_name t.name) server_name)

/-- The whole registration loop of `connect_to_server` over the server's
raw tool list. -/
def registerServerTools (server_name : String) (raw : List RawToolInfo)
    (tools : List ToolDef) (t2s : List (String × String)) :
    List ToolDef × List (String × String) :=
  raw.foldl (fun acc t => registerTool server_name t acc.1 acc.2) (tools, t2s)

lemma dget_dset_self {α : Type} (d : List (String × α)) (k : String) (v : α) :
    dget (dset d k v) k = some v := by
  induction d with
  | nil => simp [dget, dset]
  | cons p rest ih =>
    by_cases h : p.1 = k
    · simp [dget, dset, h]
    · simp [dget, dset, h, ih]

lemma dget_dset_ne {α : Type} (d : List (String × α)) (k k' : String) (v : α)
    (h : k' ≠ k) : dget (dset d k' v) k = dget d k := by
  induction d with
  | nil => simp [dget, dset, h]
  | cons p rest ih =>
    by_cases hp : p.1 = k'
    · simp [dget, dset, hp, h]
    · simp [dget, dset, hp, ih]

lemma dget_registerServerTools_preserved (S : String) :
    ∀ (raw : List RawToolInfo) (tools : List ToolDef)
      (t2s : List (String × String)) (k : String),
      dget t2s k = some S →
      dget (registerServerTools S raw tools t2s).2 k = some S
  | [], _, _, _, h => h
  | t :: rest, tools, t2s, k, h => by
    have hstep : dget (dset t2s (qualifiedName S t.name) S) k = some S := by
      by_cases hk : qualifiedName S t.name = k
      · rw [hk, dget_dset_self]
      · rw [dget_dset_ne _ _ _ _ hk]; exact h
    exact dget_registerServerTools_preserved S rest _ _ k hstep

lemma dget_registerServerTools_mem (S : String) :
    ∀ (raw : List RawToolInfo) (tools : List ToolDef)
      (t2s : List (String × String)),
      ∀ t ∈ raw,
        dget (registerServerTools S raw tools t2s).2 (qualifiedName S t.name) = some S
  | [], _, _, t, ht => absurd ht (by simp)
  | t0 :: rest, tools, t2s, t, ht => by
    rcases List.mem_cons.mp ht with h | h
    · subst h
      exact dget_registerServerTools_preserved S rest _ _ _ (dget_dset_self _ _ _)
    · exact dget_registerServerTools_mem S rest _ _ t h

lemma registerServerTools_tools (S : String) :
    ∀ (raw : List RawToolInfo) (tools : List ToolDef)
      (t2s : List (String × String)),
      (registerServerTools S raw tools t2s).1
        = tools ++ raw.map (fun t =>
            { name := qualifiedName S t.name
              description := descriptionOrDefault t.description ("Tool: " ++ t.name)
              input_schema := t.inputSchema })
  | [], tools, _ => by simp [registerServerTools]
  | t0 :: rest, tools, t2s => by
    have ih := registerServerTools_tools S rest
      (tools ++ [{ name := qualifiedName S t0.name
                   description := descriptionOrDefault t0.description ("Tool: " ++ t0.name)
                   input_schema := t0.inputSchema }])
      (dset t2s (qualifiedName S t0.name) S)
    simp only [registerServerTools, List.foldl_cons] at ih ⊢
    rw [show registerTool S t0 tools t2s
        = (tools ++ [{ name := qualifiedName S t0.name
                       description := descriptionOrDefault t0.description ("Tool: " ++ t0.name)
                       input_schema := t0.inputSchema }],
           dset t2s (qualifiedName S t0.name) S) from rfl]
    rw [ih]
    simp

lemma splitFirstDunder_append (l : List Char) :
    ∀ s : List Char, noDunder s = true → s.getLast? ≠ some '_' →
      splitFirstDunder (s ++ '_' :: '_' :: l) = some (s, l)
  | [], _, _ => by simp [splitFirstDunder]
  | [c], _, hlast => by
    have hc : ¬ c = '_' := by simpa using hlast
    simp [splitFirstDunder, hc]
  | c :: c2 :: s', hnd, hlast => by
    have hcc : ¬ (c = '_' ∧ c2 = '_') := by
      intro hcc
      simp [noDunder, hcc] at hnd
    have hnd' : noDunder (c2 :: s') = true := by
      simpa [noDunder, hcc] using hnd
    have hlast' : (c2 :: s').getLast? ≠ some '_' := by
      simpa [List.getLast?_cons_cons] using hlast
    have ih := splitFirstDunder_append l (c2 :: s') hnd' hlast'
    calc splitFirstDunder ((c :: c2 :: s') ++ '_' :: '_' :: l)
        = (splitFirstDunder ((c2 :: s') ++ '_' :: '_' :: l)).map
            (fun p => (c :: p.1, p.2)) := by
          simp [splitFirstDunder, hcc]
      _ = some (c :: c2 :: s', l) := by rw [ih]; rfl

lemma splitDunderTail_qualified (S L : String) (hnd : noDunder S.data = true)
    (hlast : S.data.getLast? ≠ some '_') :
    splitDunderTail (qualifiedName S L) = some L := by
  have hdata : (qualifiedName S L).data = S.data ++ ('_' :: '_' :: L.data) :=
    List.append_assoc S.data ['_', '_'] L.data
  rw [splitDunderTail, hdata, splitFirstDunder_append L.data S.data hnd hlast]
  rfl

/-- A host with no servers and no registered tools. -/
def emptyHostU : Host Unit :=
  { tools := [], tool_to_server := [], sessions := [] }

/-- A session that answers every call with a single text part holding the
local tool name it received. -/
def connEcho : SessionConn Unit :=
  { call := fun w n _ => (w, .ok (.withContent [.textPart n])) }

/-- C4: dispatching a qualified name that is not present in the routing
table returns, for every argument object, the JSON payload
`json.dumps` of the object mapping `"error"` to `"Unknown tool: <name>"`,
leaves the outside world untouched, and never raises (the outcome is
`Except.ok`, never a `PyErr`). -/
theorem C4_unknown_tool_never_raises {W : Type} (h : Host W) (w : W)
    (tool_name : String) (args : Json)
    (habs : dget h.tool_to_server tool_name = none) :
    call_tool h w tool_name args
      = (w, .ok (json_dumps_error ("Unknown tool: " ++ tool_name))) := by
  unfold call_tool
  rw [habs]

/-- Witness for C4 at a concrete input: on a host with an empty routing
table, dispatching `"basket__add_item"` yields exactly the rendered JSON
text of the unknown-tool error object. -/
theorem C4_unknown_tool_never_raises_witness :
    dget emptyHostU.tool_to_server "basket__add_item" = none
    ∧ call_tool emptyHostU () "basket__add_item" Json.null
      = ((), .ok "\x7b\x22error\x22: \x22Unknown tool: basket__add_item\x22\x7d") := by
  refine ⟨rfl, ?_⟩
  rw [C4_unknown_tool_never_raises emptyHostU () "basket__add_item" Json.null rfl]
  rfl

/-- C6: for a successful tool invocation, the dispatcher normalizes the raw
result: with a content sequence, each part contributes its `text` when it
has one and its string representation otherwise, joined by newline; without
a content sequence, the result's string representation is returned. -/
theorem C6_result_normalization {W : Type} (h : Host W) (w : W)
    (qn S L : String) (args : Json) (conn : SessionConn W)
    (h1 : dget h.tool_to_server qn = some S) (h2 : S ≠ "")
    (h3 : splitDunderTail qn = some L) (h4 : dget h.sessions S = some conn) :
    (∀ (parts : List RawPart) (w' : W),
        conn.call w L args = (w', .ok (.withContent parts)) →
        call_tool h w qn args
          = (w', .ok (String.intercalate "\n" (parts.map partToText))))
    ∧ (∀ (s : String) (w' : W),
        conn.call w L args = (w', .ok (.plain s)) →
        call_tool h w qn args = (w', .ok s)) := by
  constructor
  · intro parts w' hc
    unfold call_tool
    rw [h1]
    simp [h2, h3, h4, hc, normalizeResult]
  · intro s w' hc
    unfold call_tool
    rw [h1]
    simp [h2, h3, h4, hc, normalizeResult]

/-- A two-part raw result used by the C6 witness. -/
def connParts : SessionConn Unit :=
  { call := fun w _ _ =>
      (w, .ok (.withContent [.textPart "hello", .otherPart "ImageContent(...)"])) }

/-- A host owning the single server `"srv"` with connection `connParts`. -/
def hostEx6 : Host Unit :=
  { tools := []
    tool_to_server := [("srv__echo", "srv")]
    sessions := [("srv", connParts)] }

/-- Witness for C6 at a concrete input: a result with a text part and a
non-text part is flattened to the two contributions joined by a newline. -/
theorem C6_result_normalization_witness :
    call_tool hostEx6 () "srv__echo" Json.null
      = ((), .ok "hello\nImageContent(...)") := by
  have h := (C6_result_normalization hostEx6 () "srv__echo" "srv" "echo"
    Json.null connParts rfl (by decide) rfl rfl).1
    [.textPart "hello", .otherPart "ImageContent(...)"] () rfl
  rw [h]
  rfl

/-- A host as produced by registering local tool `"c"` from a server whose
name `"a__b"` itself contains the separator. -/
def hostC5 : Host Unit :=
  { tools := []
    tool_to_server := [(qualifiedName "a__b" "c", "a__b")]
    sessions := [("a__b", connEcho)] }

/-- C5 counterexample: for the server name `"a__b"` with local tool name
`"c"`, the qualified name is `"a__b__c"` and resolution yields `"a__b"` as
required, but splitting on the first `"__"` yields `"b__c"`, not the local
name `"c"`, and dispatch invokes the owning connection with `"b__c"`; so
the claim that dispatch recovers the local name this way is false as
stated. -/
theorem C5_counterexample :
    qualifiedName "a__b" "c" = "a__b__c"
    ∧ splitDunderTail (qualifiedName "a__b" "c") = some "b__c"
    ∧ splitDunderTail (qualifiedName "a__b" "c") ≠ some "c"
    ∧ call_tool hostC5 () (qualifiedName "a__b" "c") Json.null
        = ((), .ok "b__c") := by
  refine ⟨rfl, rfl, by decide, rfl⟩

/-- C5 (amended): for every server name `S`, unconditionally, every tool
registered from `S` with local name `L` gets the qualified name
`S ++ "__" ++ L` (with the defaulted description for falsy descriptions)
and resolving that qualified name yields `S`; and provided `S` is
non-empty, contains no `"__"` and does not end in `"_"`, dispatch recovers
the local name `L` by splitting the qualified name on the first `"__"` and
invokes it on `S`'s connection only. -/
theorem C5_amended_qualified_naming {W : Type} (S : String) :
    (∀ (raw : List RawToolInfo) (tools : List ToolDef)
        (t2s : List (String × String)),
      (registerServerTools S raw tools t2s).1
        = tools ++ raw.map (fun t =>
            { name := qualifiedName S t.name
              description := descriptionOrDefault t.description ("Tool: " ++ t.name)
              input_schema := t.inputSchema })
      ∧ ∀ t ∈ raw,
          dget (registerServerTools S raw tools t2s).2 (qualifiedName S t.name)
            = some S)
    ∧ (S ≠ "" → noDunder S.data = true → S.data.getLast? ≠ some '_' →
        (∀ L : String, splitDunderTail (qualifiedName S L) = some L)
        ∧ (∀ (h : Host W) (w : W) (L : String) (args : Json)
            (conn : SessionConn W),
            dget h.tool_to_server (qualifiedName S L) = some S →
            dget h.sessions S = some conn →
            call_tool h w (qualifiedName S L) args
              = ((conn.call w L args).1,
                 .ok (match (conn.call w L args).2 with
                      | .ok result => normalizeResult result
                      | .error e => json_dumps_error e)))) := by
  constructor
  · intro raw tools t2s
    exact ⟨registerServerTools_tools S raw tools t2s,
      dget_registerServerTools_mem S raw tools t2s⟩
  · intro hne hnd hlast
    constructor
    · intro L
      exact splitDunderTail_qualified S L hnd hlast
    · intro h w L args conn hres hconn
      unfold call_tool
      rw [hres]
      simp only [if_neg hne, splitDunderTail_qualified S L hnd hlast, hconn]
      rcases hc : conn.call w L args with ⟨w', r⟩
      cases r <;> rfl

/-- The raw descriptor of the local tool `"add_item"` (no description). -/
def rawAddItem : RawToolInfo :=
  { name := "add_item", description := none, inputSchema := Json.null }

/-- The registered descriptor expected for `rawAddItem` under server
`"basket"`, with the defaulted description. -/
def defAddItem : ToolDef :=
  { name := "basket__add_item", description := "Tool: add_item",
    input_schema := Json.null }

/-- A host owning the single server `"basket"` with the echo connection and
the routing entry for its `"add_item"` tool. -/
def hostEx5 : Host Unit :=
  { tools := [defAddItem]
    tool_to_server := [(qualifiedName "basket" "add_item", "basket")]
    sessions := [("basket", connEcho)] }

/-- The raw descriptor of the local tool `"c"` on the pathological server
`"a__b"`, exercising the unconditional registration clause. -/
def rawToolC : RawToolInfo :=
  { name := "c", description := none, inputSchema := Json.null }

/-- Witness for C5 (amended) at concrete inputs: registering local tool
`"add_item"` from server `"basket"` produces qualified name
`"basket__add_item"`, resolution yields `"basket"`, the split recovers
`"add_item"`, and dispatch hands exactly `"add_item"` to the `"basket"`
connection; the registration and resolution clauses also hold without side
conditions for the pathological server name `"a__b"`. -/
theorem C5_amended_qualified_naming_witness :
    (registerServerTools "basket" [rawAddItem] [] []).1 = [defAddItem]
    ∧ dget (registerServerTools "basket" [rawAddItem] [] []).2
        (qualifiedName "basket" "add_item") = some "basket"
    ∧ dget (registerServerTools "a__b" [rawToolC] [] []).2
        (qualifiedName "a__b" "c") = some "a__b"
    ∧ splitDunderTail (qualifiedName "basket" "add_item") = some "add_item"
    ∧ call_tool hostEx5 () (qualifiedName "basket" "add_item") Json.null
      = ((), .ok "add_item") := by
  have h := C5_amended_qualified_naming (W := Unit) "basket"
  have hab := C5_amended_qualified_naming (W := Unit) "a__b"
  obtain ⟨hsplit, hdisp⟩ := h.2 (by decide) (by decide) (by decide)
  have h1 := h.1 [rawAddItem] [] []
  refine ⟨?_, ?_, ?_, hsplit "add_item", ?_⟩
  · rw [h1.1]; rfl
  · have := h1.2 rawAddItem (by simp)
    simpa [rawAddItem] using this
  · have := (hab.1 [rawToolC] [] []).2 rawToolC (by simp)
    simpa [rawToolC] using this
  · rw [hdisp hostEx5 () "add_item" Json.null connEcho rfl rfl]
    rfl

/-! ## Conversation engine (`MCPHost.chat`, src/mcp_host/core/host.py) -/

/-- A model response: `stop_reason` (the loop only distinguishes
`"tool_use"` from everything else) and a list of content blocks. -/
structure ModelResponse where
  stop_reason : String
  content : List ContentBlock

/-- The model API boundary (`anthropic.messages.create`): from a system
prompt, the tool schema list and the message history to a response, or the
message of a raised API exception. -/
def Oracle : Type :=
  String → List ToolDef → List Message → Except String ModelResponse

/-- Session-context dict handed to the prompt builder on each turn:
`user_location`, `basket_item_count`, `basket_total`. -/
structure SessionContext where
  user_location : Option String
  basket_item_count : Int
  basket_total : Rat

/-- The `session_context` built by `chat` from the current state. -/
def sessionContextOf (s : SessionState) : SessionContext :=
  { user_location := s.user_location
    basket_item_count := s.basket_item_count
    basket_total := s.basket_total }

/-- Append one message to the conversation history. -/
def pushMsg (s : SessionState) (m : Message) : SessionState :=
  { s with conversation_history := s.conversation_history ++ [m] }

/-- The final-response extraction: concatenate `block.text` over all blocks
having a `.text` attribute, in order. -/
def extract_final_response (blocks : List ContentBlock) : String :=
  blocks.foldl (fun acc b =>
    match b with
    | .text t => acc ++ t
    | .toolUse _ _ _ => acc) ""

/-- The text of a block when it has a `.text` attribute. -/
def blockText : ContentBlock → Option String
  | .text t => some t
  | .toolUse _ _ _ => none

/-- Specification-side description of the final answer: the concatenation
of the text blocks, non-text blocks contributing nothing. -/
def textConcat : List ContentBlock → String
  | [] => ""
  | b :: rest =>
    (match blockText b with
     | some t => t
     | none => "") ++ textConcat rest

/-- The tool-call request blocks of a response, in order:
`(id, qualified name, arguments)` triples. -/
def toolUseReqs (blocks : List ContentBlock) : List (String × String × Json) :=
  blocks.filterMap fun b =>
    match b with
    | .toolUse id nm input => some (id, nm, input)
    | .text _ => none

/-- The request ids of the tool-call request blocks, in order. -/
def reqIds (blocks : List ContentBlock) : List String :=
  (toolUseReqs blocks).map (fun r => r.1)

/-- The qualified names of the tool-call request blocks, in order. -/
def reqNames (blocks : List ContentBlock) : List String :=
  (toolUseReqs blocks).map (fun r => r.2.1)

/-- A turn-level failure: a model API exception, a Python exception escaping
`call_tool`, or exhaustion of the loop fuel (the unbounded `while` loop ran
longer than the given bound). -/
inductive ChatErr where
  | api (e : String)
  | py (e : PyErr)
  | fuelExhausted

/-- Instrumentation record of one model invocation: the system prompt passed
and the session state at that moment (whose `conversation_history` is the
message list passed). -/
structure ModelCall where
  system : String
  snapshot : SessionState

/-- The outcome of one `chat` turn: final state, final world, result, and
the instrumentation traces of model invocations and tool dispatches. -/
structure TurnOutcome (W : Type) where
  state : SessionState
  world : W
  result : Except ChatErr String
  modelCalls : List ModelCall
  toolDispatches : List String

/-- The `for block in assistant_content` dispatch loop of one iteration:
execute the tool-use blocks sequentially in order, threading the world, and
collect a `ToolResult` per request (result id := request id); an escaping
Python exception aborts with the partial dispatch trace. -/
def runTools {W : Type} (h : Host W) :
    W → List ContentBlock →
      Except (PyErr × W × List String) (W × List ToolResult × List String)
  | w, [] => .ok (w, [], [])
  | w, .text _ :: rest => runTools h w rest
  | w, .toolUse id nm input :: rest =>
    match call_tool h w nm input with
    | (w', .error pe) => .error (pe, w', [nm])
    | (w', .ok content) =>
      match runTools h w' rest with
      | .error (pe, w'', ns) => .error (pe, w'', nm :: ns)
      | .ok (w'', rs, ns) =>
        .ok (w'', { tool_use_id := id, content := content } :: rs, nm :: ns)

/-- The state after one tool-use iteration has appended its two messages:
the assistant message carrying the response content, then exactly one
user-role message carrying the tool results. -/
def afterToolsState (st : SessionState) (response : ModelResponse)
    (results : List ToolResult) : SessionState :=
  pushMsg (pushMsg st { role := "assistant", content := .blocks response.content })
    { role := "user", content := .results results }

/-- The `while response.stop_reason == "tool_use"` loop of `chat`, with
explicit fuel bounding the number of further model invocations. -/
def chatLoop {W : Type} (h : Host W) (oracle : Oracle) (sys : String) :
    Nat → ModelResponse → SessionState → W → List ModelCall → List String →
      TurnOutcome W
  | fuel, response, st, w, calls, disps =>
    if response.stop_reason = "tool_use" then
      match runTools h w response.content with
      | .error (pe, w', names) =>
        { state := pushMsg st { role := "assistant", content := .blocks response.content }
          world := w'
          result := .error (.py pe)
          modelCalls := calls
          toolDispatches := disps ++ names }
      | .ok (w', results, names) =>
        match fuel with
        | 0 =>
          { state := afterToolsState st response results
            world := w'
            result := .error .fuelExhausted
            modelCalls := calls
            toolDispatches := disps ++ names }
        | fuel' + 1 =>
          match oracle sys h.tools (afterToolsState st response results).conversation_history with
          | .error e =>
            { state := afterToolsState st response results
              world := w'
              result := .error (.api e)
              modelCalls := calls ++ [{ system := sys, snapshot := afterToolsState st response results }]
              toolDispatches := disps ++ names }
          | .ok response' =>
            chatLoop h oracle sys fuel' response' (afterToolsState st response results) w'
              (calls ++ [{ system := sys, snapshot := afterToolsState st response results }])
              (disps ++ names)
    else
      { state := pushMsg st { role := "assistant", content := .blocks response.content }
        world := w
        result := .ok (extract_final_response response.content)
        modelCalls := calls
        toolDispatches := disps }

/-- `MCPHost.chat`: append the user message, build the system prompt from
the current session context, invoke the model, and run the tool-use loop.
The prompt builder `pb` is the external collaborator
`PromptBuilder.build_system_prompt` restricted to its `session_context`
argument. -/
def chat {W : Type} (h : Host W) (oracle : Oracle) (pb : SessionContext → String)
    (fuel : Nat) (st : SessionState) (w : W) (user_message : String) :
    TurnOutcome W :=
  let st1 := pushMsg st { role := "user", content := .ofText user_message }
  let system_prompt := pb (sessionContextOf st1)
  match oracle system_prompt h.tools st1.conversation_history with
  | .error e =>
    { state := st1
      world := w
      result := .error (.api e)
      modelCalls := [{ system := system_prompt, snapshot := st1 }]
      toolDispatches := [] }
  | .ok response =>
    chatLoop h oracle system_prompt fuel response st1 w
      [{ system := system_prompt, snapshot := st1 }] []

/-- Routing-table sanity as established by `connect_to_server`: every
routing entry with a truthy server name has a splittable qualified name and
an owning session. -/
def HostWF {W : Type} (h : Host W) : Prop :=
  ∀ k v, dget h.tool_to_server k = some v →
    v = "" ∨ ((∃ L, splitDunderTail k = some L)
      ∧ ∃ conn, dget h.sessions v = some conn)

lemma call_tool_ok {W : Type} (h : Host W) (hwf : HostWF h) (w : W)
    (nm : String) (args : Json) :
    ∃ w' s, call_tool h w nm args = (w', .ok s) := by
  cases hres : dget h.tool_to_server nm with
  | none =>
    refine ⟨w, json_dumps_error ("Unknown tool: " ++ nm), ?_⟩
    unfold call_tool
    rw [hres]
  | some v =>
    by_cases hv : v = ""
    · refine ⟨w, json_dumps_error ("Unknown tool: " ++ nm), ?_⟩
      unfold call_tool
      rw [hres]
      simp [hv]
    · rcases hwf nm v hres with h0 | ⟨⟨L, hL⟩, conn, hconn⟩
      · exact absurd h0 hv
      · rcases hc : conn.call w L args with ⟨w2, r⟩
        cases r with
        | ok res =>
          refine ⟨w2, normalizeResult res, ?_⟩
          unfold call_tool
          rw [hres]
          simp [hv, hL, hconn, hc]
        | error e =>
          refine ⟨w2, json_dumps_error e, ?_⟩
          unfold call_tool
          rw [hres]
          simp [hv, hL, hconn, hc]

lemma runTools_ok {W : Type} (h : Host W) (hwf : HostWF h) :
    ∀ (bs : List ContentBlock) (w : W), ∃ w' rs,
      runTools h w bs = .ok (w', rs, reqNames bs)
      ∧ rs.map ToolResult.tool_use_id = reqIds bs
      ∧ rs.length = (toolUseReqs bs).length
  | [], w => ⟨w, [], rfl, rfl, rfl⟩
  | .text t :: rest, w => by
    obtain ⟨w', rs, h1, h2, h3⟩ := runTools_ok h hwf rest w
    exact ⟨w', rs, h1, h2, h3⟩
  | .toolUse id nm input :: rest, w => by
    obtain ⟨w1, content, hcall⟩ := call_tool_ok h hwf w nm input
    obtain ⟨w', rs, h1, h2, h3⟩ := runTools_ok h hwf rest w1
    refine ⟨w', { tool_use_id := id, content := content } :: rs, ?_, ?_, ?_⟩
    · show runTools h w (.toolUse id nm input :: rest) = _
      unfold runTools
      rw [hcall]
      simp only []
      rw [h1]
      rfl
    · simp [reqIds, toolUseReqs, List.filterMap_cons] at h2 ⊢
      exact h2
    · simp [toolUseReqs, List.filterMap_cons] at h3 ⊢
      exact h3

lemma sessionContextOf_pushMsg (s : SessionState) (m : Message) :
    sessionContextOf (pushMsg s m) = sessionContextOf s := rfl

lemma sessionContextOf_afterToolsState (st : SessionState)
    (response : ModelResponse) (results : List ToolResult) :
    sessionContextOf (afterToolsState st response results) = sessionContextOf st := rfl

lemma chatLoop_tool_use_step {W : Type} (h : Host W) (oracle : Oracle)
    (sys : String) (fuel : Nat) (response : ModelResponse) (st : SessionState)
    (w : W) (calls : List ModelCall) (disps : List String) (w' : W)
    (results : List ToolResult) (names : List String)
    (hstop : response.stop_reason = "tool_use")
    (hrun : runTools h w response.content = .ok (w', results, names)) :
    chatLoop h oracle sys (fuel + 1) response st w calls disps
      = (match oracle sys h.tools (afterToolsState st response results).conversation_history with
         | .error e =>
           { state := afterToolsState st response results
             world := w'
             result := .error (.api e)
             modelCalls := calls ++ [{ system := sys, snapshot := afterToolsState st response results }]
             toolDispatches := disps ++ names }
         | .ok response' =>
           chatLoop h oracle sys fuel response' (afterToolsState st response results) w'
             (calls ++ [{ system := sys, snapshot := afterToolsState st response results }])
             (disps ++ names)) := by
  conv_lhs => rw [chatLoop]
  rw [hstop, hrun]
  simp

lemma chatLoop_calls_fresh {W : Type} (h : Host W) (oracle : Oracle)
    (pb : SessionContext → String) :
    ∀ (fuel : Nat) (response : ModelResponse) (st : SessionState) (w : W)
      (calls : List ModelCall) (disps : List String) (sys : String),
      sys = pb (sessionContextOf st) →
      (∀ c ∈ calls, c.system = pb (sessionContextOf c.snapshot)) →
      ∀ c ∈ (chatLoop h oracle sys fuel response st w calls disps).modelCalls,
        c.system = pb (sessionContextOf c.snapshot) := by
  intro fuel
  induction fuel with
  | zero =>
    intro response st w calls disps sys hsys hcalls c hc
    by_cases hstop : response.stop_reason = "tool_use"
    · rw [chatLoop] at hc
      rw [hstop] at hc
      simp only [if_pos rfl] at hc
      rcases hrun : runTools h w response.content with ⟨pe, w', names⟩ | ⟨w', results, names⟩ <;>
        rw [hrun] at hc <;> exact hcalls c hc
    · rw [chatLoop] at hc
      rw [if_neg hstop] at hc
      exact hcalls c hc
  | succ fuel ih =>
    intro response st w calls disps sys hsys hcalls c hc
    by_cases hstop : response.stop_reason = "tool_use"
    · rcases hrun : runTools h w response.content with ⟨pe, w', names⟩ | ⟨w', results, names⟩
      · rw [chatLoop] at hc
        rw [hstop] at hc
        simp only [if_pos rfl] at hc
        rw [hrun] at hc
        exact hcalls c hc
      · rw [chatLoop_tool_use_step h oracle sys fuel response st w calls disps
          w' results names hstop hrun] at hc
        have hsys3 : sys = pb (sessionContextOf (afterToolsState st response results)) := by
          rw [sessionContextOf_afterToolsState]
          exact hsys
        have hcalls3 : ∀ c' ∈ calls ++ [(⟨sys, afterToolsState st response results⟩ : ModelCall)],
            c'.system = pb (sessionContextOf c'.snapshot) := by
          intro c' hc'
          rcases List.mem_append.mp hc' with hmem | hmem
          · exact hcalls c' hmem
          · have hone : c' = (⟨sys, afterToolsState st response results⟩ : ModelCall) := by
              simpa using hmem
            rw [hone]
            exact hsys3
        cases hor : oracle sys h.tools (afterToolsState st response results).conversation_history with
        | error e =>
          rw [hor] at hc
          exact hcalls3 c hc
        | ok response' =>
          rw [hor] at hc
          exact ih response' (afterToolsState st response results) w'
            (calls ++ [⟨sys, afterToolsState st response results⟩])
            (disps ++ names) sys hsys3 hcalls3 c hc
    · rw [chatLoop] at hc
      rw [if_neg hstop] at hc
      exact hcalls c hc

lemma chatLoop_state_shape {W : Type} (h : Host W) (oracle : Oracle)
    (sys : String) :
    ∀ (fuel : Nat) (response : ModelResponse) (st : SessionState) (w : W)
      (calls : List ModelCall) (disps : List String), ∃ extra,
      (chatLoop h oracle sys fuel response st w calls disps).state
        = { st with conversation_history := st.conversation_history ++ extra } := by
  intro fuel
  induction fuel with
  | zero =>
    intro response st w calls disps
    by_cases hstop : response.stop_reason = "tool_use"
    · rw [chatLoop, hstop]
      simp only [if_pos rfl]
      rcases hrun : runTools h w response.content with ⟨pe, w', names⟩ | ⟨w', results, names⟩
      · exact ⟨[{ role := "assistant", content := .blocks response.content }], rfl⟩
      · refine ⟨[{ role := "assistant", content := .blocks response.content },
          { role := "user", content := .results results }], ?_⟩
        simp [afterToolsState, pushMsg]
    · rw [chatLoop, if_neg hstop]
      exact ⟨[{ role := "assistant", content := .blocks response.content }], rfl⟩
  | succ fuel ih =>
    intro response st w calls disps
    by_cases hstop : response.stop_reason = "tool_use"
    · rcases hrun : runTools h w response.content with ⟨pe, w', names⟩ | ⟨w', results, names⟩
      · rw [chatLoop, hstop]
        simp only [if_pos rfl]
        rw [hrun]
        exact ⟨[{ role := "assistant", content := .blocks response.content }], rfl⟩
      · rw [chatLoop_tool_use_step h oracle sys fuel response st w calls disps
          w' results names hstop hrun]
        cases hor : oracle sys h.tools (afterToolsState st response results).conversation_history with
        | error e =>
          refine ⟨[{ role := "assistant", content := .blocks response.content },
            { role := "user", content := .results results }], ?_⟩
          simp [afterToolsState, pushMsg]
        | ok response' =>
          obtain ⟨extra, hextra⟩ := ih response' (afterToolsState st response results) w'
            (calls ++ [{ system := sys, snapshot := afterToolsState st response results }])
            (disps ++ names)
          refine ⟨{ role := "assistant", content := .blocks response.content } ::
            { role := "user", content := .results results } :: extra, ?_⟩
          rw [hextra]
          simp [afterToolsState, pushMsg]
    · rw [chatLoop, if_neg hstop]
      exact ⟨[{ role := "assistant", content := .blocks response.content }], rfl⟩

lemma extract_final_aux :
    ∀ (bs : List ContentBlock) (acc : String),
      bs.foldl (fun a b =>
        match b with
        | ContentBlock.text t => a ++ t
        | ContentBlock.toolUse _ _ _ => a) acc
        = acc ++ textConcat bs
  | [], acc => by simp [textConcat, String.append_empty]
  | .text t :: rest, acc => by
    simp only [List.foldl_cons, textConcat, blockText]
    rw [extract_final_aux rest (acc ++ t), String.append_assoc]
  | .toolUse id nm input :: rest, acc => by
    simp only [List.foldl_cons, textConcat, blockText]
    rw [extract_final_aux rest acc, String.empty_append]

lemma extract_final_response_eq_textConcat (bs : List ContentBlock) :
    extract_final_response bs = textConcat bs := by
  have h := extract_final_aux bs ""
  rw [extract_final_response, h]
  exact String.empty_append (textConcat bs)

/-- An example session state with empty history and empty basket. -/
def stEx0 : SessionState :=
  { basket := []
    discount_code := none
    discount_amount := 0
    conversation_history := []
    user_location := none
    user_preferences := []
    current_order_id := none
    session_start := 0 }

/-- An end-turn response mixing text and non-text blocks. -/
def respEnd : ModelResponse :=
  { stop_reason := "end_turn"
    content := [.text "Hi ", .toolUse "i1" "t" Json.null, .text "there"] }

/-- A tool-use response with one text block and one tool-call request. -/
def respTU : ModelResponse :=
  { stop_reason := "tool_use"
    content := [.text "calling", .toolUse "id1" "basket__add_item" Json.null] }

/-- A model that always answers with `respEnd`. -/
def endTurnOracle : Oracle := fun _ _ _ => .ok respEnd

/-- A model whose API call always raises. -/
def failOracle : Oracle := fun _ _ _ => .error "API down"

/-- A prompt builder that depends on the session context. -/
def pbCount : SessionContext → String := fun ctx =>
  if ctx.basket_item_count > 0 then "SYS basket" else "SYS empty"

lemma hostEx5_wf : HostWF hostEx5 := by
  intro k v hkv
  by_cases hk : qualifiedName "basket" "add_item" = k
  · have hv : v = "basket" := by
      rw [show hostEx5.tool_to_server
        = [(qualifiedName "basket" "add_item", "basket")] from rfl] at hkv
      rw [dget, if_pos hk] at hkv
      exact (Option.some.inj hkv).symm
    subst hv
    subst hk
    exact Or.inr ⟨⟨"add_item", rfl⟩, ⟨connEcho, rfl⟩⟩
  · rw [show hostEx5.tool_to_server
      = [(qualifiedName "basket" "add_item", "basket")] from rfl] at hkv
    rw [dget, if_neg hk, dget] at hkv
    exact absurd hkv (by simp)

/-- C1: in a turn iteration whose model response has stop reason
`tool_use`, the requests are dispatched sequentially in request order
(`runTools` succeeds and its dispatch trace lists the requested names in
order), the engine builds exactly one tool result per request block with
`tool_use_id` equal to the corresponding request's `id` in the same order,
and — as the loop equation shows — appends exactly one user-role message
carrying that result list (after the assistant message) before the next
model invocation. -/
theorem C1_one_result_message_per_turn {W : Type} (h : Host W) (oracle : Oracle)
    (sys : String) (fuel : Nat) (response : ModelResponse) (st : SessionState)
    (w : W) (calls : List ModelCall) (disps : List String)
    (hwf : HostWF h) (hstop : response.stop_reason = "tool_use") :
    ∃ w' results,
      runTools h w response.content = .ok (w', results, reqNames response.content)
      ∧ results.length = (toolUseReqs response.content).length
      ∧ results.map ToolResult.tool_use_id = reqIds response.content
      ∧ chatLoop h oracle sys (fuel + 1) response st w calls disps
          = (match oracle sys h.tools
              (afterToolsState st response results).conversation_history with
             | .error e =>
               ⟨afterToolsState st response results, w', .error (.api e),
                calls ++ [⟨sys, afterToolsState st response results⟩],
                disps ++ reqNames response.content⟩
             | .ok response' =>
               chatLoop h oracle sys fuel response'
                 (afterToolsState st response results) w'
                 (calls ++ [⟨sys, afterToolsState st response results⟩])
                 (disps ++ reqNames response.content)) := by
  obtain ⟨w', results, h1, h2, h3⟩ := runTools_ok h hwf response.content w
  exact ⟨w', results, h1, h3, h2,
    chatLoop_tool_use_step h oracle sys fuel response st w calls disps
      w' results (reqNames response.content) hstop h1⟩

/-- Witness for C1 at a concrete input: one tool-use request produces one
dispatch of `"basket__add_item"`, one result with matching id `"id1"`, and
the loop proceeds to the next model invocation with exactly the assistant
message and one user result message appended. -/
theorem C1_one_result_message_per_turn_witness :
    respTU.stop_reason = "tool_use"
    ∧ runTools hostEx5 () respTU.content
        = .ok ((), [(⟨"id1", "add_item"⟩ : ToolResult)], reqNames respTU.content)
    ∧ [(⟨"id1", "add_item"⟩ : ToolResult)].map ToolResult.tool_use_id
        = reqIds respTU.content
    ∧ chatLoop hostEx5 endTurnOracle "SYS" 1 respTU stEx0 () [] []
        = chatLoop hostEx5 endTurnOracle "SYS" 0 respEnd
            (afterToolsState stEx0 respTU [(⟨"id1", "add_item"⟩ : ToolResult)]) ()
            [⟨"SYS", afterToolsState stEx0 respTU [(⟨"id1", "add_item"⟩ : ToolResult)]⟩]
            (reqNames respTU.content) := by
  obtain ⟨w', results, h1, h2, h3, h4⟩ :=
    C1_one_result_message_per_turn hostEx5 endTurnOracle "SYS" 0 respTU stEx0 ()
      [] [] hostEx5_wf rfl
  have h0 : runTools hostEx5 () respTU.content
      = .ok ((), [(⟨"id1", "add_item"⟩ : ToolResult)], reqNames respTU.content) := rfl
  have hres : results = [(⟨"id1", "add_item"⟩ : ToolResult)] := by
    have hh := h0.symm.trans h1
    simpa using hh.symm
  subst hres
  refine ⟨rfl, h1, h3, ?_⟩
  rw [h4]
  rfl

/-- C2: on every model invocation within a turn — the first call and every
repeated call inside the tool-use loop — the system prompt passed to the
model equals the prompt builder applied to the session context of the
session state as it is at that moment (nothing in the loop mutates the
contextual fields, so the model always sees the current context such as
basket contents even mid-loop). -/
theorem C2_system_prompt_from_current_context {W : Type} (h : Host W)
    (oracle : Oracle) (pb : SessionContext → String) (fuel : Nat)
    (st : SessionState) (w : W) (user_message : String) :
    ∀ c ∈ (chat h oracle pb fuel st w user_message).modelCalls,
      c.system = pb (sessionContextOf c.snapshot) := by
  intro c hc
  simp only [chat] at hc
  cases hor : oracle
      (pb (sessionContextOf (pushMsg st ⟨"user", .ofText user_message⟩)))
      h.tools (pushMsg st ⟨"user", .ofText user_message⟩).conversation_history with
  | error e =>
    rw [hor] at hc
    have hone : c = (⟨pb (sessionContextOf (pushMsg st ⟨"user", .ofText user_message⟩)),
        pushMsg st ⟨"user", .ofText user_message⟩⟩ : ModelCall) := by
      simpa using hc
    rw [hone]
  | ok response =>
    rw [hor] at hc
    refine chatLoop_calls_fresh h oracle pb fuel response
      (pushMsg st ⟨"user", .ofText user_message⟩) w _ [] _ rfl ?_ c hc
    intro c' hc'
    have hone : c' = (⟨pb (sessionContextOf (pushMsg st ⟨"user", .ofText user_message⟩)),
        pushMsg st ⟨"user", .ofText user_message⟩⟩ : ModelCall) := by
      simpa using hc'
    rw [hone]

/-- Witness for C2 at a concrete input: the single model call of an
end-turn run records system prompt `"SYS empty"`, which is the prompt
builder applied to the recorded snapshot's context. -/
theorem C2_system_prompt_from_current_context_witness :
    (⟨"SYS empty", pushMsg stEx0 ⟨"user", .ofText "hi"⟩⟩ : ModelCall).system
      = pbCount (sessionContextOf (pushMsg stEx0 ⟨"user", .ofText "hi"⟩)) := by
  refine C2_system_prompt_from_current_context emptyHostU endTurnOracle pbCount 1
    stEx0 () "hi" _ ?_
  show _ ∈ (chat emptyHostU endTurnOracle pbCount 1 stEx0 () "hi").modelCalls
  exact List.mem_singleton_self _

/-- C3 counterexample: with a model API that raises on the first call, the
turn fails hard as claimed, but the session state is not left unchanged:
the user message was already appended to the conversation history before
the failing call, so the claim's no-partial-mutation part is false. -/
theorem C3_counterexample :
    (chat emptyHostU failOracle pbCount 0 stEx0 () "hi").result
      = .error (.api "API down")
    ∧ (chat emptyHostU failOracle pbCount 0 stEx0 () "hi").state ≠ stEx0 := by
  refine ⟨rfl, ?_⟩
  intro hEq
  have h1 : (chat emptyHostU failOracle pbCount 0 stEx0 ()
      "hi").state.conversation_history.length = 1 := rfl
  rw [hEq] at h1
  simp [stEx0] at h1

/-- C3 (amended): when the model API call fails — on the turn's first
invocation or on any repeated invocation inside the tool-use loop — the
failure propagates to the caller as a hard failure of the turn; the
contextual fields of `SessionState` are unchanged, but the conversation
history retains the messages appended before the failing call: the turn's
user message, plus — for failures after tool-use iterations — the
completed assistant and tool-result messages. -/
theorem C3_amended_api_failure_propagates {W : Type} (h : Host W)
    (oracle : Oracle) (pb : SessionContext → String) (fuel : Nat)
    (st : SessionState) (w : W) (user_message : String) :
    (∀ e, oracle (pb (sessionContextOf (pushMsg st ⟨"user", .ofText user_message⟩)))
        h.tools (pushMsg st ⟨"user", .ofText user_message⟩).conversation_history
          = .error e →
      (chat h oracle pb fuel st w user_message).result = .error (.api e))
    ∧ (∀ (sys : String) (fuel' : Nat) (response : ModelResponse)
        (st' : SessionState) (w' : W) (calls : List ModelCall)
        (disps : List String) (w'' : W) (results : List ToolResult)
        (names : List String) (e : String),
        response.stop_reason = "tool_use" →
        runTools h w' response.content = .ok (w'', results, names) →
        oracle sys h.tools
          (afterToolsState st' response results).conversation_history
            = .error e →
        (chatLoop h oracle sys (fuel' + 1) response st' w' calls disps).result
          = .error (.api e))
    ∧ (∀ e, (chat h oracle pb fuel st w user_message).result = .error (.api e) →
        ∃ extra, (chat h oracle pb fuel st w user_message).state
          = { st with conversation_history := st.conversation_history
              ++ ⟨"user", .ofText user_message⟩ :: extra }) := by
  refine ⟨?_, ?_, ?_⟩
  · intro e hor
    simp only [chat]
    rw [hor]
  · intro sys fuel' response st' w' calls disps w'' results names e hstop hrun hor
    rw [chatLoop_tool_use_step h oracle sys fuel' response st' w' calls disps
      w'' results names hstop hrun]
    rw [hor]
  · intro e _
    simp only [chat]
    cases hor : oracle
        (pb (sessionContextOf (pushMsg st ⟨"user", .ofText user_message⟩)))
        h.tools (pushMsg st ⟨"user", .ofText user_message⟩).conversation_history with
    | error e' =>
      exact ⟨[], rfl⟩
    | ok response =>
      obtain ⟨extra, hextra⟩ := chatLoop_state_shape h oracle
        (pb (sessionContextOf (pushMsg st ⟨"user", .ofText user_message⟩))) fuel
        response (pushMsg st ⟨"user", .ofText user_message⟩) w
        [⟨pb (sessionContextOf (pushMsg st ⟨"user", .ofText user_message⟩)),
          pushMsg st ⟨"user", .ofText user_message⟩⟩] []
      refine ⟨extra, ?_⟩
      show (chatLoop h oracle
        (pb (sessionContextOf (pushMsg st ⟨"user", .ofText user_message⟩))) fuel
        response (pushMsg st ⟨"user", .ofText user_message⟩) w
        [⟨pb (sessionContextOf (pushMsg st ⟨"user", .ofText user_message⟩)),
          pushMsg st ⟨"user", .ofText user_message⟩⟩] []).state = _
      rw [hextra]
      simp [pushMsg]

/-- Witness for C3 (amended) at concrete inputs: a failing first call
propagates as an API error; a model call failing after a completed
tool-use iteration (one dispatched request on `hostEx5`) also propagates
as an API error; and the final state after the first-call failure is the
initial state with exactly the user message appended. -/
theorem C3_amended_api_failure_propagates_witness :
    (chat emptyHostU failOracle pbCount 0 stEx0 () "hi").result
      = .error (.api "API down")
    ∧ (chatLoop hostEx5 failOracle "SYS" 1 respTU stEx0 () [] []).result
      = .error (.api "API down")
    ∧ ∃ extra, (chat emptyHostU failOracle pbCount 0 stEx0 () "hi").state
        = { stEx0 with conversation_history := stEx0.conversation_history
            ++ ⟨"user", .ofText "hi"⟩ :: extra } := by
  have h := C3_amended_api_failure_propagates emptyHostU failOracle pbCount 0
    stEx0 () "hi"
  have h5 := C3_amended_api_failure_propagates hostEx5 failOracle pbCount 0
    stEx0 () "hi"
  refine ⟨h.1 "API down" rfl, ?_, h.2.2 "API down" (h.1 "API down" rfl)⟩
  exact h5.2.1 "SYS" 0 respTU stEx0 () [] [] () [⟨"id1", "add_item"⟩]
    (reqNames respTU.content) "API down" rfl rfl rfl

/-- C8: when the first model response of a turn has stop reason
`end_turn`, the engine performs zero tool dispatches (empty dispatch trace,
world untouched), appends only the assistant message after the user
message, and returns exactly the concatenation of the response's text
blocks, non-text blocks contributing nothing. -/
theorem C8_end_turn_zero_dispatches {W : Type} (h : Host W) (oracle : Oracle)
    (pb : SessionContext → String) (fuel : Nat) (st : SessionState) (w : W)
    (user_message : String) (r : ModelResponse)
    (hor : oracle (pb (sessionContextOf (pushMsg st ⟨"user", .ofText user_message⟩)))
        h.tools (pushMsg st ⟨"user", .ofText user_message⟩).conversation_history
          = .ok r)
    (hstop : r.stop_reason = "end_turn") :
    chat h oracle pb fuel st w user_message
      = ⟨pushMsg (pushMsg st ⟨"user", .ofText user_message⟩)
            ⟨"assistant", .blocks r.content⟩,
         w, .ok (extract_final_response r.content),
         [⟨pb (sessionContextOf (pushMsg st ⟨"user", .ofText user_message⟩)),
           pushMsg st ⟨"user", .ofText user_message⟩⟩], []⟩
    ∧ extract_final_response r.content = textConcat r.content := by
  constructor
  · simp only [chat]
    rw [hor]
    show chatLoop h oracle
      (pb (sessionContextOf (pushMsg st ⟨"user", .ofText user_message⟩))) fuel r
      (pushMsg st ⟨"user", .ofText user_message⟩) w
      [⟨pb (sessionContextOf (pushMsg st ⟨"user", .ofText user_message⟩)),
        pushMsg st ⟨"user", .ofText user_message⟩⟩] [] = _
    rw [chatLoop, if_neg (by rw [hstop]; decide)]
  · exact extract_final_response_eq_textConcat r.content

/-- Witness for C8 at a concrete input: an immediate end-turn response with
blocks `"Hi "`, a tool-use block, `"there"` yields answer `"Hi there"` and
an empty dispatch trace. -/
theorem C8_end_turn_zero_dispatches_witness :
    (chat emptyHostU endTurnOracle pbCount 2 stEx0 () "hello").result
      = .ok "Hi there"
    ∧ (chat emptyHostU endTurnOracle pbCount 2 stEx0 () "hello").toolDispatches
      = [] := by
  have h := C8_end_turn_zero_dispatches emptyHostU endTurnOracle pbCount 2
    stEx0 () "hello" respEnd rfl rfl
  rw [h.1]
  exact ⟨rfl, rfl⟩

end VoiceShop
